import Mathlib

/-!
Verification development for the DMA leakage analysis engine
(src/leak-analyzer/scripts/leakage_calculator.py).

The Python code is embedded shallowly: real-number arithmetic is modelled
over the rationals, the mutable DMA store becomes explicit state passing,
and code paths that raise a Python exception return an Option whose none
constructor stands for the raised error.  Python round is modelled by
round-half-to-even on exact rationals.
-/

/-- Round a rational to the nearest integer, halves to even: the rounding
mode of the Python round builtin, on exact values. -/
def pyRoundInt (q : ℚ) : ℤ :=
  if q - ⌊q⌋ < 1/2 then ⌊q⌋
  else if 1/2 < q - ⌊q⌋ then ⌊q⌋ + 1
  else if ⌊q⌋ % 2 = 0 then ⌊q⌋ else ⌊q⌋ + 1

/-- Model of the Python round(x, ndigits) builtin on exact rationals. -/
def pyRound (ndigits : ℕ) (q : ℚ) : ℚ :=
  (pyRoundInt (q * 10 ^ ndigits) : ℚ) / 10 ^ ndigits

/-- Round-half-to-even on a real number, for quantities (the sample
standard deviation) that are irrational. -/
noncomputable def pyRoundIntR (x : ℝ) : ℤ :=
  if x - ⌊x⌋ < 1/2 then ⌊x⌋
  else if 1/2 < x - ⌊x⌋ then ⌊x⌋ + 1
  else if ⌊x⌋ % 2 = 0 then ⌊x⌋ else ⌊x⌋ + 1

/-- Model of the Python round(x, ndigits) builtin on reals. -/
noncomputable def pyRoundR (ndigits : ℕ) (x : ℝ) : ℝ :=
  (pyRoundIntR (x * 10 ^ ndigits) : ℝ) / 10 ^ ndigits

/-- Accumulator loop for decimal digit parsing: consumes the whole list and
returns none as soon as a non-digit character appears. -/
def parseDigits : List Char → ℕ → Option ℕ
  | [], acc => some acc
  | c :: cs, acc =>
      if c.isDigit then parseDigits cs (10 * acc + (c.toNat - 48)) else none

/-- Model of the Python int builtin on a string (as a character list):
an optional sign followed by at least one decimal digit succeeds, anything
else raises ValueError, modelled as none.  (Whitespace trimming and
underscore separators of the Python builtin are not modelled; none of the
analysed inputs use them.) -/
def parseIntChars : List Char → Option ℤ
  | [] => none
  | '-' :: cs =>
      if cs.isEmpty then none else (parseDigits cs 0).map (fun n => -(n : ℤ))
  | '+' :: cs =>
      if cs.isEmpty then none else (parseDigits cs 0).map (fun n => (n : ℤ))
  | cs => (parseDigits cs 0).map (fun n => (n : ℤ))

/-- Embeds int(data[time].split(colon)[0]) from calculate_mnf: the prefix
of the time field before the first colon, parsed as an integer. -/
def parseHour (time : String) : Option ℤ :=
  parseIntChars (time.data.takeWhile (fun c => c ≠ ':'))

/-- Embeds the Python min builtin on a nonempty list (head and tail). -/
def listMin : List ℚ → ℚ
  | [] => 0
  | x :: xs => xs.foldl min x

/-- Embeds the Python max builtin on a nonempty list (head and tail). -/
def listMax : List ℚ → ℚ
  | [] => 0
  | x :: xs => xs.foldl max x

/-- Embeds statistics.mean: the sum divided by the length. -/
def pyMean (l : List ℚ) : ℚ := l.sum / (l.length : ℚ)

/-- The Bessel-corrected sample variance used by statistics.stdev:
sum of squared deviations from the mean, divided by n minus one. -/
def sampleVar (l : List ℚ) : ℚ :=
  ((l.map (fun x => (x - pyMean l) ^ 2)).sum) / ((l.length : ℚ) - 1)

/-- Embeds statistics.stdev: the square root of the sample variance. -/
noncomputable def pyStdev (l : List ℚ) : ℝ :=
  Real.sqrt ((sampleVar l : ℚ) : ℝ)

/-- Embeds the Python enumerate builtin, starting at a given index. -/
def pyEnumFrom {α : Type} (n : ℕ) : List α → List (ℕ × α)
  | [] => []
  | x :: xs => (n, x) :: pyEnumFrom (n + 1) xs

/-- One stored DMA zone record, the dict built by add_dma_data. -/
structure DMAZoneRecord where
  total_flow : ℚ
  user_total : ℚ
  user_flows : List ℚ
  leakage : ℚ
  leakage_rate : ℚ
deriving DecidableEq

/-- Embeds LeakageCalculator.add_dma_data: computes the derived fields and
stores the record under the zone id.  The dict self.dma_data is modelled
as an association list consulted front to back, so consing models the
dict overwrite. -/
def add_dma_data (dma_data : List (String × DMAZoneRecord)) (dma_id : String)
    (total_flow : ℚ) (user_flows : List ℚ) : List (String × DMAZoneRecord) :=
  let user_total := user_flows.sum
  let leakage := total_flow - user_total
  let leakage_rate := if 0 < total_flow then leakage / total_flow * 100 else 0
  (dma_id, { total_flow := total_flow, user_total := user_total,
             user_flows := user_flows, leakage := leakage,
             leakage_rate := leakage_rate }) :: dma_data

/-- Front-to-back lookup in the modelled dict: the first binding for a key
is the most recent registration. -/
def lookupStore (dma_id : String) : List (String × DMAZoneRecord) → Option DMAZoneRecord
  | [] => none
  | (k, v) :: rest => if k = dma_id then some v else lookupStore dma_id rest

/-- The arguments of one add_dma_data call. -/
structure RegisterCall where
  dma_id : String
  total_flow : ℚ
  user_flows : List ℚ

/-- Runs a sequence of add_dma_data calls on an initially empty store,
as one analysis session of LeakageCalculator does. -/
def runCalls (calls : List RegisterCall) : List (String × DMAZoneRecord) :=
  calls.foldl (fun store c => add_dma_data store c.dma_id c.total_flow c.user_flows) []

/-- One flow time sample, the dicts fed to calculate_mnf. -/
structure FlowSample where
  time : String
  flow : ℚ
deriving DecidableEq

/-- The dict returned by calculate_mnf.  The empty-window branch of the
source returns a dict without the flow_values key, so that field is an
Option: none models the absent key. -/
structure NightFlowResult where
  mnf : ℚ
  avg_flow : ℚ
  data_points : ℕ
  flow_values : Option (List ℚ)
deriving DecidableEq

/-- The filtering loop of calculate_mnf: parses the hour of every sample
in order (the first unparsable time field raises, modelled as none) and
keeps the flow values whose hour lies in the half-open window. -/
def filteredFlows (flow_data : List FlowSample) (start_hour end_hour : ℤ) :
    Option (List ℚ) :=
  match flow_data with
  | [] => some []
  | d :: rest =>
      match parseHour d.time with
      | none => none
      | some h =>
          (filteredFlows rest start_hour end_hour).map
            (fun tail => if start_hour ≤ h ∧ h < end_hour then d.flow :: tail else tail)

/-- Embeds LeakageCalculator.calculate_mnf.  The none result models the
ValueError raised by int() on an unparsable time field (the
MalformedTimestamp error of the design). -/
def calculate_mnf (flow_data : List FlowSample) (hour_range : ℤ × ℤ) :
    Option NightFlowResult :=
  (filteredFlows flow_data hour_range.1 hour_range.2).map (fun fd =>
    if fd.isEmpty then
      { mnf := 0, avg_flow := 0, data_points := 0, flow_values := none }
    else
      { mnf := pyRound 2 (listMin fd),
        avg_flow := pyRound 2 (fd.sum / (fd.length : ℚ)),
        data_points := fd.length,
        flow_values := some (fd.map (pyRound 2)) })

/-- Stated from the claim wording for comparison with filteredFlows: a
sample is kept exactly when its parsed hour lies in the half-open window. -/
def hourMatches (start_hour end_hour : ℤ) (d : FlowSample) : Bool :=
  match parseHour d.time with
  | some h => decide (start_hour ≤ h ∧ h < end_hour)
  | none => false

/-- One pressure time sample, the dicts fed to detect_pressure_anomaly. -/
structure PressureSample where
  time : String
  pressure : ℚ
deriving DecidableEq

/-- One anomaly dict appended by detect_pressure_anomaly (the source dict
key named type is rendered anomaly_type here). -/
structure Anomaly where
  index : ℕ
  time : String
  pressure : ℚ
  avg_pressure : ℚ
  deviation : ℚ
  anomaly_type : String
deriving DecidableEq

/-- The dict returned by detect_pressure_anomaly.  The standard deviation
is a real number (a square root), every other field is rational. -/
structure PressureReport where
  avg_pressure : ℚ
  std_pressure : ℝ
  min_pressure : ℚ
  max_pressure : ℚ
  anomalies : List Anomaly
  anomaly_count : ℕ

/-- The pressures list extracted at the top of detect_pressure_anomaly. -/
def pressuresOf (pressure_data : List PressureSample) : List ℚ :=
  pressure_data.map (fun d => d.pressure)

/-- The per-sample deviation of the source: relative deviation from the
mean when the mean is positive, zero otherwise. -/
def deviationOf (pressure avg : ℚ) : ℚ :=
  if 0 < avg then |pressure - avg| / avg else 0

/-- The anomaly dict built in the loop body of detect_pressure_anomaly. -/
def mkAnomaly (i : ℕ) (d : PressureSample) (avg : ℚ) : Anomaly :=
  { index := i, time := d.time, pressure := d.pressure,
    avg_pressure := pyRound 3 avg,
    deviation := pyRound 2 (deviationOf d.pressure avg * 100),
    anomaly_type := if d.pressure < avg then "low" else "high" }

/-- One iteration of the detection loop: emits the anomaly dict when the
deviation strictly exceeds the threshold. -/
def anomalyOfIndexed (avg threshold : ℚ) (p : ℕ × PressureSample) : Option Anomaly :=
  if threshold < deviationOf p.2.pressure avg then some (mkAnomaly p.1 p.2 avg) else none

/-- The anomalies list accumulated by the enumerate loop of
detect_pressure_anomaly. -/
def anomaliesOf (pressure_data : List PressureSample) (threshold : ℚ) : List Anomaly :=
  (pyEnumFrom 0 pressure_data).filterMap
    (anomalyOfIndexed (pyMean (pressuresOf pressure_data)) threshold)

/-- The report dict of detect_pressure_anomaly, built after the guard on
empty input has passed. -/
noncomputable def detectBody (pressure_data : List PressureSample) (threshold : ℚ) :
    PressureReport :=
  { avg_pressure := pyRound 3 (pyMean (pressuresOf pressure_data)),
    std_pressure :=
      pyRoundR 3 (if 1 < (pressuresOf pressure_data).length
                  then pyStdev (pressuresOf pressure_data) else 0),
    min_pressure := pyRound 3 (listMin (pressuresOf pressure_data)),
    max_pressure := pyRound 3 (listMax (pressuresOf pressure_data)),
    anomalies := anomaliesOf pressure_data threshold,
    anomaly_count := (anomaliesOf pressure_data threshold).length }

/-- Embeds LeakageCalculator.detect_pressure_anomaly.  On an empty sample
list statistics.mean raises StatisticsError (the EmptyInput error of the
design), modelled as none. -/
noncomputable def detect_pressure_anomaly (pressure_data : List PressureSample)
    (threshold : ℚ) : Option PressureReport :=
  if pressure_data.isEmpty then none else some (detectBody pressure_data threshold)

/-- Stated from the claim wording for comparison with deviationOf: the
relative deviation from the mean, defined as zero when the mean is zero. -/
def specRelativeDeviation (pressure avg : ℚ) : ℚ :=
  if avg = 0 then 0 else |pressure - avg| / avg

/-- The dict returned by assess_leakage_status. -/
structure LeakageAssessment where
  status : String
  level : String
  action : String
  urgency : String
deriving DecidableEq

/-- The urgency entry of the assess_leakage_status result dict. -/
def urgencyOf (leakage_rate : ℚ) : String :=
  if 25 ≤ leakage_rate then "高" else if 15 ≤ leakage_rate then "中" else "低"

/-- Embeds LeakageCalculator.assess_leakage_status: the four-tier
classifier, first matching tier wins. -/
def assess_leakage_status (leakage_rate : ℚ) : LeakageAssessment :=
  if leakage_rate < 10 then
    { status := "excellent", level := "A-优秀",
      action := "保持现状，正常维护", urgency := urgencyOf leakage_rate }
  else if leakage_rate < 15 then
    { status := "good", level := "B-良好",
      action := "关注漏损变化，加强巡检", urgency := urgencyOf leakage_rate }
  else if leakage_rate < 25 then
    { status := "warning", level := "C-需关注",
      action := "排查漏水点，制定整改计划", urgency := urgencyOf leakage_rate }
  else
    { status := "critical", level := "D-严重",
      action := "立即启动DMA分区分区检测，重点排查", urgency := urgencyOf leakage_rate }

/-- The cross-zone summary record of the design. -/
structure NetworkSummary where
  zone_count : ℕ
  avg_leakage_rate : ℚ
  total_leakage : ℚ
  critical_zone_count : ℕ
deriving DecidableEq

/-- The cross-zone summary: merges the summary dict of export_dma_report
(zone count, guarded rounded mean of the rates, guarded rounded total
leakage) with the critical-zone count of generate_dma_report, which
filters on a leakage rate of at least 25. -/
def summarize (zones : List DMAZoneRecord) : NetworkSummary :=
  { zone_count := zones.length,
    avg_leakage_rate :=
      if zones.isEmpty then 0 else pyRound 2 (pyMean (zones.map (fun z => z.leakage_rate))),
    total_leakage :=
      if zones.isEmpty then 0 else pyRound 2 ((zones.map (fun z => z.leakage)).sum),
    critical_zone_count :=
      (zones.filter (fun z => decide (25 ≤ z.leakage_rate))).length }

/-- The pressure series of the worked example in the source and the spec. -/
def examplePressureData : List PressureSample :=
  [⟨"08:00", 48/100⟩, ⟨"09:00", 47/100⟩, ⟨"10:00", 32/100⟩,
   ⟨"11:00", 46/100⟩, ⟨"12:00", 47/100⟩]

/-- A small pressure series used by witnesses. -/
def witnessPressureData : List PressureSample :=
  [⟨"00:00", 1⟩, ⟨"01:00", 3⟩]

/-- The filtering loop raises exactly when some time field fails to parse. -/
lemma filteredFlows_eq_none (flow_data : List FlowSample) (start_hour end_hour : ℤ) :
    filteredFlows flow_data start_hour end_hour = none ↔
      ∃ d ∈ flow_data, parseHour d.time = none := by
  induction flow_data with
  | nil => simp [filteredFlows]
  | cons d rest ih =>
    cases hp : parseHour d.time with
    | none =>
      simp only [filteredFlows, hp]
      constructor
      · intro _; exact ⟨d, List.mem_cons_self d rest, hp⟩
      · intro _; trivial
    | some h =>
      simp only [filteredFlows, hp, Option.map_eq_none']
      rw [ih]
      constructor
      · rintro ⟨x, hx, hnone⟩; exact ⟨x, List.mem_cons_of_mem d hx, hnone⟩
      · rintro ⟨x, hx, hnone⟩
        rcases List.mem_cons.mp hx with heq | hx'
        · rw [heq] at hnone; rw [hp] at hnone; exact absurd hnone (by simp)
        · exact ⟨x, hx', hnone⟩

/-- Claim C9: calculate_mnf fails with the MalformedTimestamp error (the
none result) exactly when some time field of the input cannot be split
into an integer hour component; whenever every time field parses, it
returns normally. -/
theorem calculate_mnf_malformed_iff (flow_data : List FlowSample) (hour_range : ℤ × ℤ) :
    calculate_mnf flow_data hour_range = none ↔
      ∃ d ∈ flow_data, parseHour d.time = none := by
  unfold calculate_mnf
  rw [Option.map_eq_none']
  exact filteredFlows_eq_none flow_data hour_range.1 hour_range.2

/-- Claim C5 (amended): on an input whose time fields all parse and whose
filtered window is empty, calculate_mnf returns the record with
data_points zero, all numeric fields zero, and no flow_values entry
(the source dict of the empty branch has no flow_values key, modelled
as the none field). -/
theorem calculate_mnf_empty_window (flow_data : List FlowSample) (start_hour end_hour : ℤ)
    (h : filteredFlows flow_data start_hour end_hour = some []) :
    calculate_mnf flow_data (start_hour, end_hour) =
      some { mnf := 0, avg_flow := 0, data_points := 0, flow_values := none } := by
  unfold calculate_mnf
  have h' : filteredFlows flow_data (start_hour, end_hour).1 (start_hour, end_hour).2 =
      some [] := h
  rw [h']
  rfl

/-- Witness for claim C5 at a concrete input with an empty window. -/
theorem calculate_mnf_empty_window_witness :
    filteredFlows [⟨"10:00", 5⟩] 2 4 = some [] ∧
    calculate_mnf [⟨"10:00", 5⟩] (2, 4) =
      some { mnf := 0, avg_flow := 0, data_points := 0, flow_values := none } :=
  ⟨by decide, calculate_mnf_empty_window [⟨"10:00", 5⟩] 2 4 (by decide)⟩

/-- Counterexample for claim C5 as stated: on an empty window the result
carries no flow_values entry at all (the field is none), not an empty
flow_values sequence. -/
theorem calculate_mnf_empty_window_cex :
    (calculate_mnf [⟨"10:00", 5⟩] (2, 4)).map (fun r => r.flow_values) ≠
      some (some []) ∧
    (calculate_mnf [⟨"10:00", 5⟩] (2, 4)).map (fun r => r.flow_values) = some none := by
  exact ⟨by decide, by decide⟩

/-- Claim C6: detect_pressure_anomaly fails with the EmptyInput error (the
none result) on an empty sample sequence, and never does so when at least
one sample is given. -/
theorem detect_pressure_anomaly_empty_input :
    (∀ threshold : ℚ, detect_pressure_anomaly [] threshold = none) ∧
    (∀ (pressure_data : List PressureSample) (threshold : ℚ), pressure_data ≠ [] →
      (detect_pressure_anomaly pressure_data threshold).isSome = true) := by
  constructor
  · intro threshold; rfl
  · intro pressure_data threshold h
    cases pressure_data with
    | nil => exact absurd rfl h
    | cons x xs => rfl

/-- Witness for claim C6 at a concrete nonempty input. -/
theorem detect_pressure_anomaly_empty_input_witness :
    witnessPressureData ≠ [] ∧
    (detect_pressure_anomaly witnessPressureData (15/100)).isSome = true :=
  ⟨by simp [witnessPressureData],
   detect_pressure_anomaly_empty_input.2 witnessPressureData (15/100)
     (by simp [witnessPressureData])⟩

/-- Claim C7: the cross-zone summary of an empty zone collection is the
all-zero summary, and its computation raises nothing. -/
theorem summarize_empty :
    summarize [] =
      { zone_count := 0, avg_leakage_rate := 0, total_leakage := 0,
        critical_zone_count := 0 } := rfl

/-- Claim C2: the classifier is a total function evaluating four tiers in
order with the first match winning: below 10 excellent grade A low
urgency, from 10 below 15 good grade B low urgency, from 15 below 25
warning grade C medium urgency, from 25 critical grade D high urgency;
the boundary values from the spec land on the lower-inclusive tiers. -/
theorem assess_leakage_status_tiers :
    (∀ r : ℚ, r < 10 →
      (assess_leakage_status r).status = "excellent" ∧
      (assess_leakage_status r).level = "A-优秀" ∧
      (assess_leakage_status r).urgency = "低") ∧
    (∀ r : ℚ, 10 ≤ r → r < 15 →
      (assess_leakage_status r).status = "good" ∧
      (assess_leakage_status r).level = "B-良好" ∧
      (assess_leakage_status r).urgency = "低") ∧
    (∀ r : ℚ, 15 ≤ r → r < 25 →
      (assess_leakage_status r).status = "warning" ∧
      (assess_leakage_status r).level = "C-需关注" ∧
      (assess_leakage_status r).urgency = "中") ∧
    (∀ r : ℚ, 25 ≤ r →
      (assess_leakage_status r).status = "critical" ∧
      (assess_leakage_status r).level = "D-严重" ∧
      (assess_leakage_status r).urgency = "高") ∧
    (assess_leakage_status (99/10)).status = "excellent" ∧
    (assess_leakage_status (99/10)).level = "A-优秀" ∧
    (assess_leakage_status 10).status = "good" ∧
    (assess_leakage_status 10).level = "B-良好" ∧
    (assess_leakage_status (14999/1000)).status = "good" ∧
    (assess_leakage_status 25).status = "critical" ∧
    (assess_leakage_status 25).level = "D-严重" := by
  refine ⟨?_, ?_, ?_, ?_, ?_, ?_, ?_, ?_, ?_, ?_, ?_⟩
  · intro r h
    unfold assess_leakage_status urgencyOf
    rw [if_pos h, if_neg (show ¬ (25:ℚ) ≤ r by linarith),
        if_neg (show ¬ (15:ℚ) ≤ r by linarith)]
    exact ⟨rfl, rfl, rfl⟩
  · intro r h1 h2
    unfold assess_leakage_status urgencyOf
    rw [if_neg (not_lt.mpr h1), if_pos h2,
        if_neg (show ¬ (25:ℚ) ≤ r by linarith), if_neg (not_le.mpr h2)]
    exact ⟨rfl, rfl, rfl⟩
  · intro r h1 h2
    unfold assess_leakage_status urgencyOf
    rw [if_neg (show ¬ r < 10 by linarith), if_neg (not_lt.mpr h1), if_pos h2,
        if_neg (not_le.mpr h2), if_pos h1]
    exact ⟨rfl, rfl, rfl⟩
  · intro r h
    unfold assess_leakage_status urgencyOf
    rw [if_neg (show ¬ r < 10 by linarith), if_neg (show ¬ r < 15 by linarith),
        if_neg (not_lt.mpr h), if_pos h]
    exact ⟨rfl, rfl, rfl⟩
  · norm_num [assess_leakage_status]
  · norm_num [assess_leakage_status]
  · norm_num [assess_leakage_status]
  · norm_num [assess_leakage_status]
  · norm_num [assess_leakage_status]
  · norm_num [assess_leakage_status]
  · norm_num [assess_leakage_status]

/-- Witness for claim C2 at a concrete rate inside the first tier. -/
theorem assess_leakage_status_tiers_witness :
    (5:ℚ) < 10 ∧
    ((assess_leakage_status 5).status = "excellent" ∧
     (assess_leakage_status 5).level = "A-优秀" ∧
     (assess_leakage_status 5).urgency = "低") :=
  ⟨by norm_num, assess_leakage_status_tiers.1 5 (by norm_num)⟩

/-- A successful store lookup returns a binding that is in the store. -/
lemma lookupStore_mem (store : List (String × DMAZoneRecord)) (dma_id : String)
    (r : DMAZoneRecord) (h : lookupStore dma_id store = some r) :
    (dma_id, r) ∈ store := by
  induction store with
  | nil => simp [lookupStore] at h
  | cons p rest ih =>
    obtain ⟨k, v⟩ := p
    simp only [lookupStore] at h
    by_cases hk : k = dma_id
    · rw [if_pos hk] at h
      have hv : v = r := Option.some.inj h
      subst hk; subst hv
      exact List.mem_cons_self _ _
    · rw [if_neg hk] at h
      exact List.mem_cons_of_mem _ (ih h)

/-- Every binding produced by folding add_dma_data over a store whose
bindings already satisfy the balance identities satisfies them too. -/
lemma runCalls_fold_inv (calls : List RegisterCall) :
    ∀ store : List (String × DMAZoneRecord),
      (∀ p ∈ store, p.2.leakage = p.2.total_flow - p.2.user_flows.sum ∧
        p.2.leakage_rate =
          if 0 < p.2.total_flow then p.2.leakage / p.2.total_flow * 100 else 0) →
      ∀ p ∈ calls.foldl
          (fun st c => add_dma_data st c.dma_id c.total_flow c.user_flows) store,
        p.2.leakage = p.2.total_flow - p.2.user_flows.sum ∧
        p.2.leakage_rate =
          if 0 < p.2.total_flow then p.2.leakage / p.2.total_flow * 100 else 0 := by
  induction calls with
  | nil => intro store h; simpa using h
  | cons c rest ih =>
    intro store h
    rw [List.foldl_cons]
    apply ih
    intro p hp
    simp only [add_dma_data] at hp
    rcases List.mem_cons.mp hp with heq | hp'
    · subst heq
      exact ⟨rfl, rfl⟩
    · exact h p hp'

/-- Claim C1: after any sequence of add_dma_data calls, every record still
stored satisfies the balance invariant: its leakage equals its total flow
minus the sum of its user flows, and its leakage rate is the percentage
quotient when the total flow is positive and zero otherwise, so no
division by zero can occur. -/
theorem add_dma_data_invariant (calls : List RegisterCall) (dma_id : String)
    (record : DMAZoneRecord)
    (h : lookupStore dma_id (runCalls calls) = some record) :
    record.leakage = record.total_flow - record.user_flows.sum ∧
    record.leakage_rate =
      if 0 < record.total_flow then record.leakage / record.total_flow * 100 else 0 := by
  have hmem : (dma_id, record) ∈ runCalls calls := lookupStore_mem _ _ _ h
  exact runCalls_fold_inv calls [] (by simp) (dma_id, record) hmem

/-- Witness for claim C1: two registrations of the same zone, the second
overwriting the first; the surviving record satisfies the invariant. -/
theorem add_dma_data_invariant_witness :
    lookupStore ("DMA-001")
        (runCalls [⟨"DMA-001", 100, [20, 30]⟩, ⟨"DMA-001", 80, [10]⟩]) =
      some { total_flow := 80, user_total := 10, user_flows := [10],
             leakage := 70, leakage_rate := 175/2 } ∧
    ((70:ℚ) = 80 - [(10:ℚ)].sum ∧
     (175/2 : ℚ) = if (0:ℚ) < 80 then 70 / 80 * 100 else 0) := by
  have hl : lookupStore ("DMA-001")
      (runCalls [⟨"DMA-001", 100, [20, 30]⟩, ⟨"DMA-001", 80, [10]⟩]) =
      some { total_flow := 80, user_total := 10, user_flows := [10],
             leakage := 70, leakage_rate := 175/2 } := by
    norm_num [runCalls, add_dma_data, lookupStore]
  have hinv := add_dma_data_invariant
    [⟨"DMA-001", 100, [20, 30]⟩, ⟨"DMA-001", 80, [10]⟩] ("DMA-001")
    { total_flow := 80, user_total := 10, user_flows := [10],
      leakage := 70, leakage_rate := 175/2 } hl
  exact ⟨hl, hinv⟩

/-- Claim C8: a zone is counted by the summary as critical exactly when
the classifier places its leakage rate in the critical tier; the two
cutoffs agree. -/
theorem critical_count_matches_classifier :
    (∀ z : DMAZoneRecord,
      25 ≤ z.leakage_rate ↔ (assess_leakage_status z.leakage_rate).status = "critical") ∧
    (∀ zones : List DMAZoneRecord,
      (summarize zones).critical_zone_count =
        (zones.filter
          (fun z => decide ((assess_leakage_status z.leakage_rate).status = "critical"))).length) := by
  have key : ∀ z : DMAZoneRecord,
      25 ≤ z.leakage_rate ↔ (assess_leakage_status z.leakage_rate).status = "critical" := by
    intro z
    unfold assess_leakage_status
    by_cases h1 : z.leakage_rate < 10
    · rw [if_pos h1]
      exact iff_of_false (by linarith) (by simp)
    · by_cases h2 : z.leakage_rate < 15
      · rw [if_neg h1, if_pos h2]
        exact iff_of_false (by linarith) (by simp)
      · by_cases h3 : z.leakage_rate < 25
        · rw [if_neg h1, if_neg h2, if_pos h3]
          exact iff_of_false (by linarith) (by simp)
        · rw [if_neg h1, if_neg h2, if_neg h3]
          exact iff_of_true (by linarith) rfl
  refine ⟨key, ?_⟩
  intro zones
  show (zones.filter (fun z => decide (25 ≤ z.leakage_rate))).length = _
  congr 1
  apply List.filter_congr
  intro z _
  exact decide_eq_decide.mpr (key z)

/-- The filtering loop keeps exactly the flow values of the samples whose
parsed hour lies in the half-open window, in order. -/
lemma filteredFlows_eq_filter (flow_data : List FlowSample) (start_hour end_hour : ℤ) :
    ∀ fd : List ℚ, filteredFlows flow_data start_hour end_hour = some fd →
      fd = (flow_data.filter (hourMatches start_hour end_hour)).map (fun d => d.flow) := by
  induction flow_data with
  | nil =>
    intro fd h
    simp only [filteredFlows, Option.some.injEq] at h
    simp [← h]
  | cons d rest ih =>
    intro fd h
    cases hp : parseHour d.time with
    | none =>
      simp only [filteredFlows, hp] at h
      exact Option.noConfusion h
    | some hr =>
      simp only [filteredFlows, hp, Option.map_eq_some'] at h
      obtain ⟨tail, htail, hfd⟩ := h
      subst hfd
      by_cases hc : start_hour ≤ hr ∧ hr < end_hour
      · have hm : hourMatches start_hour end_hour d = true := by
          simp [hourMatches, hp, hc]
        rw [if_pos hc, List.filter_cons_of_pos hm, List.map_cons]
        rw [← ih tail htail]
      · have hm : hourMatches start_hour end_hour d = false := by
          simp only [hourMatches, hp]
          exact decide_eq_false hc
        rw [if_neg hc, List.filter_cons_of_neg (by simp [hm])]
        exact ih tail htail

/-- Folding min never exceeds the accumulator. -/
lemma foldl_min_le_init (xs : List ℚ) : ∀ a : ℚ, xs.foldl min a ≤ a := by
  induction xs with
  | nil => intro a; simp
  | cons x rest ih =>
    intro a
    rw [List.foldl_cons]
    exact le_trans (ih (min a x)) (min_le_left a x)

/-- Folding min never exceeds any list element. -/
lemma foldl_min_le_mem (xs : List ℚ) : ∀ a x : ℚ, x ∈ xs → xs.foldl min a ≤ x := by
  induction xs with
  | nil => intro a x hx; simp at hx
  | cons y rest ih =>
    intro a x hx
    rw [List.foldl_cons]
    rcases List.mem_cons.mp hx with heq | hx'
    · subst heq
      exact le_trans (foldl_min_le_init rest (min a x)) (min_le_right a x)
    · exact ih (min a y) x hx'

/-- Folding min returns the accumulator or a list element. -/
lemma foldl_min_mem (xs : List ℚ) : ∀ a : ℚ, xs.foldl min a = a ∨ xs.foldl min a ∈ xs := by
  induction xs with
  | nil => intro a; left; rfl
  | cons x rest ih =>
    intro a
    rw [List.foldl_cons]
    rcases ih (min a x) with heq | hmem
    · rcases min_choice a x with hax | hax
      · left; rw [heq, hax]
      · right; rw [heq, hax]; exact List.mem_cons_self x rest
    · right; exact List.mem_cons_of_mem x hmem

/-- On a nonempty list, listMin is a member and a lower bound: it is the
minimum of the list, as the Python min builtin computes. -/
lemma listMin_spec (fd : List ℚ) (h : fd ≠ []) :
    listMin fd ∈ fd ∧ ∀ x ∈ fd, listMin fd ≤ x := by
  cases fd with
  | nil => exact absurd rfl h
  | cons x xs =>
    constructor
    · show xs.foldl min x ∈ x :: xs
      rcases foldl_min_mem xs x with heq | hmem
      · rw [heq]; exact List.mem_cons_self x xs
      · exact List.mem_cons_of_mem x hmem
    · intro y hy
      show xs.foldl min x ≤ y
      rcases List.mem_cons.mp hy with heq | hy'
      · subst heq; exact foldl_min_le_init xs y
      · exact foldl_min_le_mem xs x y hy'

/-- Claim C4: calculate_mnf keeps exactly the samples whose parsed hour
lies in the half-open window, and on a nonempty window returns the
minimum and the arithmetic mean of the kept values, both rounded to two
decimal digits, the count, and the rounded kept values; the worked
example from the spec evaluates as stated. -/
theorem calculate_mnf_window :
    (∀ (flow_data : List FlowSample) (start_hour end_hour : ℤ) (fd : List ℚ),
        filteredFlows flow_data start_hour end_hour = some fd →
        fd = (flow_data.filter (hourMatches start_hour end_hour)).map (fun d => d.flow)) ∧
    (∀ (flow_data : List FlowSample) (start_hour end_hour : ℤ) (fd : List ℚ),
        filteredFlows flow_data start_hour end_hour = some fd → fd ≠ [] →
        calculate_mnf flow_data (start_hour, end_hour) =
          some { mnf := pyRound 2 (listMin fd),
                 avg_flow := pyRound 2 (fd.sum / (fd.length : ℚ)),
                 data_points := fd.length,
                 flow_values := some (fd.map (pyRound 2)) } ∧
        listMin fd ∈ fd ∧ (∀ x ∈ fd, listMin fd ≤ x)) ∧
    calculate_mnf [⟨"02:00", 10⟩, ⟨"02:30", 8⟩, ⟨"03:00", 12⟩] (2, 4) =
      some { mnf := 8, avg_flow := 10, data_points := 3, flow_values := some [10, 8, 12] } := by
  refine ⟨?_, ?_, ?_⟩
  · intro flow_data start_hour end_hour fd h
    exact filteredFlows_eq_filter flow_data start_hour end_hour fd h
  · intro flow_data start_hour end_hour fd hff hne
    refine ⟨?_, (listMin_spec fd hne).1, (listMin_spec fd hne).2⟩
    unfold calculate_mnf
    have h' : filteredFlows flow_data (start_hour, end_hour).1 (start_hour, end_hour).2 =
        some fd := hff
    rw [h', Option.map_some']
    cases fd with
    | nil => exact absurd rfl hne
    | cons f fs => rfl
  · have hff : filteredFlows [⟨"02:00", 10⟩, ⟨"02:30", 8⟩, ⟨"03:00", 12⟩] 2 4 =
        some [10, 8, 12] := by decide
    unfold calculate_mnf
    rw [show filteredFlows [⟨"02:00", 10⟩, ⟨"02:30", 8⟩, ⟨"03:00", 12⟩]
          ((2:ℤ), (4:ℤ)).1 ((2:ℤ), (4:ℤ)).2 = some [10, 8, 12] from hff,
        Option.map_some']
    norm_num [List.isEmpty_cons, NightFlowResult.mk.injEq, pyRound, pyRoundInt,
      listMin, min_def]

/-- Witness for claim C4 at a concrete one-sample window. -/
theorem calculate_mnf_window_witness :
    filteredFlows [⟨"02:00", 5⟩] 2 4 = some [5] ∧
    ([(5:ℚ)] ≠ []) ∧
    (calculate_mnf [⟨"02:00", 5⟩] (2, 4) =
        some { mnf := pyRound 2 (listMin [5]),
               avg_flow := pyRound 2 ([(5:ℚ)].sum / (([(5:ℚ)].length : ℚ))),
               data_points := [(5:ℚ)].length,
               flow_values := some ([(5:ℚ)].map (pyRound 2)) } ∧
      listMin [5] ∈ [(5:ℚ)] ∧ (∀ x ∈ [(5:ℚ)], listMin [5] ≤ x)) :=
  ⟨by decide, by simp,
   calculate_mnf_window.2.1 [⟨"02:00", 5⟩] 2 4 [5] (by decide) (by simp)⟩

/-- Inverting a successful detection: the input was nonempty and the
report is the body record. -/
lemma detect_eq_some {pressure_data : List PressureSample} {threshold : ℚ}
    {r : PressureReport}
    (h : detect_pressure_anomaly pressure_data threshold = some r) :
    pressure_data ≠ [] ∧ r = detectBody pressure_data threshold := by
  cases pressure_data with
  | nil => exact Option.noConfusion h
  | cons x xs =>
    have hx : detect_pressure_anomaly (x :: xs) threshold =
        some (detectBody (x :: xs) threshold) := rfl
    rw [hx] at h
    exact ⟨by simp, (Option.some.inj h).symm⟩

/-- Rounding zero gives zero. -/
lemma pyRoundR_zero (ndigits : ℕ) : pyRoundR ndigits 0 = 0 := by
  unfold pyRoundR pyRoundIntR
  norm_num

/-- Claim C10 (amended): in the report of detect_pressure_anomaly, the
avg_pressure field is the arithmetic mean of the pressures rounded to
three decimal digits, and the std_pressure field is the rounding to three
decimal digits of the nonnegative number whose square is the
Bessel-corrected sample variance (divisor one less than the count) when
more than one sample is given, and zero when exactly one sample is
given. -/
theorem pressure_report_mean_std (pressure_data : List PressureSample) (threshold : ℚ)
    (r : PressureReport)
    (h : detect_pressure_anomaly pressure_data threshold = some r) :
    r.avg_pressure = pyRound 3 (pyMean (pressuresOf pressure_data)) ∧
    pyMean (pressuresOf pressure_data) * ((pressuresOf pressure_data).length : ℚ) =
      (pressuresOf pressure_data).sum ∧
    (1 < pressure_data.length →
      sampleVar (pressuresOf pressure_data) * (((pressuresOf pressure_data).length : ℚ) - 1) =
        ((pressuresOf pressure_data).map
          (fun x => (x - pyMean (pressuresOf pressure_data)) ^ 2)).sum ∧
      ∃ s : ℝ, 0 ≤ s ∧ s ^ 2 = ((sampleVar (pressuresOf pressure_data) : ℚ) : ℝ) ∧
        r.std_pressure = pyRoundR 3 s) ∧
    (pressure_data.length = 1 → r.std_pressure = 0) := by
  obtain ⟨hne, rfl⟩ := detect_eq_some h
  have hlen : (pressuresOf pressure_data).length = pressure_data.length :=
    List.length_map _ _
  have h0 : pressure_data.length ≠ 0 := fun hl => hne (List.length_eq_zero.mp hl)
  refine ⟨rfl, ?_, ?_, ?_⟩
  · have hQ : ((pressuresOf pressure_data).length : ℚ) ≠ 0 := by
      rw [hlen]
      exact_mod_cast h0
    unfold pyMean
    exact div_mul_cancel₀ _ hQ
  · intro h2
    have h2' : 1 < (pressuresOf pressure_data).length := by rw [hlen]; exact h2
    have hcast : (1:ℚ) < ((pressuresOf pressure_data).length : ℚ) := by exact_mod_cast h2'
    have hden : (((pressuresOf pressure_data).length : ℚ) - 1) ≠ 0 := by linarith
    constructor
    · unfold sampleVar
      exact div_mul_cancel₀ _ hden
    · have hvar : 0 ≤ sampleVar (pressuresOf pressure_data) := by
        unfold sampleVar
        apply div_nonneg
        · apply List.sum_nonneg
          intro x hx
          rw [List.mem_map] at hx
          obtain ⟨y, _, rfl⟩ := hx
          exact sq_nonneg _
        · linarith
      have hvarR : (0:ℝ) ≤ ((sampleVar (pressuresOf pressure_data) : ℚ) : ℝ) := by
        exact_mod_cast hvar
      refine ⟨Real.sqrt ((sampleVar (pressuresOf pressure_data) : ℚ) : ℝ),
        Real.sqrt_nonneg _, Real.sq_sqrt hvarR, ?_⟩
      show pyRoundR 3 (if 1 < (pressuresOf pressure_data).length
            then pyStdev (pressuresOf pressure_data) else 0) = _
      rw [if_pos h2']
      rfl
  · intro h1
    show pyRoundR 3 (if 1 < (pressuresOf pressure_data).length
          then pyStdev (pressuresOf pressure_data) else 0) = 0
    rw [if_neg (by rw [hlen, h1]; exact lt_irrefl 1)]
    exact pyRoundR_zero 3

/-- Witness for claim C10 on a concrete two-sample series. -/
theorem pressure_report_mean_std_witness :
    (detectBody witnessPressureData (15/100)).avg_pressure =
      pyRound 3 (pyMean (pressuresOf witnessPressureData)) ∧
    pyMean (pressuresOf witnessPressureData) * ((pressuresOf witnessPressureData).length : ℚ) =
      (pressuresOf witnessPressureData).sum ∧
    sampleVar (pressuresOf witnessPressureData) *
        (((pressuresOf witnessPressureData).length : ℚ) - 1) =
      ((pressuresOf witnessPressureData).map
        (fun x => (x - pyMean (pressuresOf witnessPressureData)) ^ 2)).sum := by
  have h := pressure_report_mean_std witnessPressureData (15/100)
    (detectBody witnessPressureData (15/100)) rfl
  exact ⟨h.1, h.2.1, (h.2.2.1 (by norm_num [witnessPressureData])).1⟩

/-- Counterexample for claim C10 as stated: the avg_pressure field of the
report is the mean rounded to three decimal digits, which differs from
the arithmetic mean itself on pressures 0, 0, 1. -/
theorem pressure_report_rounding_cex :
    (detect_pressure_anomaly [⟨"00:00", 0⟩, ⟨"01:00", 0⟩, ⟨"02:00", 1⟩] (15/100)).map
        (fun r => r.avg_pressure) = some (333/1000) ∧
    pyMean (pressuresOf [⟨"00:00", 0⟩, ⟨"01:00", 0⟩, ⟨"02:00", 1⟩]) = 1/3 ∧
    ((333:ℚ)/1000) ≠ 1/3 := by
  have hmean : pyMean (pressuresOf [⟨"00:00", 0⟩, ⟨"01:00", 0⟩, ⟨"02:00", 1⟩]) = 1/3 := by
    norm_num [pyMean, pressuresOf]
  refine ⟨?_, hmean, by norm_num⟩
  have hd : detect_pressure_anomaly [⟨"00:00", 0⟩, ⟨"01:00", 0⟩, ⟨"02:00", 1⟩] (15/100) =
      some (detectBody [⟨"00:00", 0⟩, ⟨"01:00", 0⟩, ⟨"02:00", 1⟩] (15/100)) := rfl
  rw [hd, Option.map_some']
  show some (pyRound 3 (pyMean (pressuresOf [⟨"00:00", 0⟩, ⟨"01:00", 0⟩, ⟨"02:00", 1⟩]))) =
    some (333/1000)
  rw [hmean]
  norm_num [pyRound, pyRoundInt]

/-- Membership in the enumerated list: exactly the positions of the list,
shifted by the start index. -/
lemma mem_pyEnumFrom {α : Type} (l : List α) :
    ∀ (n : ℕ) (p : ℕ × α),
      p ∈ pyEnumFrom n l ↔ ∃ i, l.get? i = some p.2 ∧ p.1 = n + i := by
  induction l with
  | nil => intro n p; simp [pyEnumFrom]
  | cons x xs ih =>
    intro n p
    obtain ⟨p1, p2⟩ := p
    constructor
    · intro hp
      rcases List.mem_cons.mp hp with heq | hmem
      · rw [Prod.mk.injEq] at heq
        obtain ⟨rfl, rfl⟩ := heq
        exact ⟨0, by simp, by simp⟩
      · obtain ⟨i, hg, hn⟩ := (ih (n + 1) (p1, p2)).mp hmem
        exact ⟨i + 1, by simpa using hg, by omega⟩
    · rintro ⟨i, hg, hn⟩
      cases i with
      | zero =>
        simp only [List.get?_cons_zero, Option.some.injEq] at hg
        subst hg
        simp only [Nat.add_zero] at hn
        subst hn
        exact List.mem_cons_self _ _
      | succ j =>
        apply List.mem_cons_of_mem
        apply (ih (n + 1) (p1, p2)).mpr
        refine ⟨j, ?_, by omega⟩
        simpa using hg

/-- The loop body emits an anomaly exactly when the deviation strictly
exceeds the threshold, and the emitted record is the built dict. -/
lemma anomalyOfIndexed_eq_some (avg threshold : ℚ) (i : ℕ) (d : PressureSample)
    (a : Anomaly) :
    anomalyOfIndexed avg threshold (i, d) = some a ↔
      threshold < deviationOf d.pressure avg ∧ a = mkAnomaly i d avg := by
  show (if threshold < deviationOf d.pressure avg
        then some (mkAnomaly i d avg) else none) = some a ↔ _
  by_cases hc : threshold < deviationOf d.pressure avg
  · rw [if_pos hc]
    simp [hc, eq_comm]
  · rw [if_neg hc]
    simp [hc]

/-- Membership in the anomalies list, through the enumeration. -/
lemma mem_anomaliesOf {pressure_data : List PressureSample} {threshold : ℚ} {a : Anomaly} :
    a ∈ anomaliesOf pressure_data threshold ↔
      ∃ i d, pressure_data.get? i = some d ∧
        anomalyOfIndexed (pyMean (pressuresOf pressure_data)) threshold (i, d) = some a := by
  unfold anomaliesOf
  rw [List.mem_filterMap]
  constructor
  · rintro ⟨p, hp, hf⟩
    obtain ⟨p1, p2⟩ := p
    obtain ⟨i, hg, hn⟩ := (mem_pyEnumFrom pressure_data 0 (p1, p2)).mp hp
    have h1 : p1 = i := by omega
    subst h1
    exact ⟨p1, p2, hg, hf⟩
  · rintro ⟨i, d, hg, hf⟩
    exact ⟨(i, d),
      (mem_pyEnumFrom pressure_data 0 (i, d)).mpr ⟨i, hg, (Nat.zero_add i).symm⟩, hf⟩

/-- Every anomaly produced from an enumeration starting at n has index at
least n. -/
lemma anomaliesAux_index_ge (avg threshold : ℚ) :
    ∀ (l : List PressureSample) (n : ℕ) (a : Anomaly),
      a ∈ (pyEnumFrom n l).filterMap (anomalyOfIndexed avg threshold) → n ≤ a.index := by
  intro l
  induction l with
  | nil => intro n a ha; simp [pyEnumFrom] at ha
  | cons x xs ih =>
    intro n a ha
    cases hf : anomalyOfIndexed avg threshold (n, x) with
    | none =>
      have ha' : a ∈ (pyEnumFrom (n + 1) xs).filterMap (anomalyOfIndexed avg threshold) := by
        simpa [pyEnumFrom, List.filterMap_cons, hf] using ha
      exact le_trans (by omega) (ih (n + 1) a ha')
    | some b =>
      have ha' : a = b ∨
          a ∈ (pyEnumFrom (n + 1) xs).filterMap (anomalyOfIndexed avg threshold) := by
        have hh := ha
        simp only [pyEnumFrom, List.filterMap_cons, hf, List.mem_cons] at hh
        exact hh
      rcases ha' with heq | hmem
      · subst heq
        obtain ⟨_, rfl⟩ := (anomalyOfIndexed_eq_some avg threshold n x a).mp hf
        exact Nat.le.refl
      · exact le_trans (by omega) (ih (n + 1) a hmem)

/-- The anomalies produced from an enumeration carry strictly increasing
indices: input order is preserved. -/
lemma anomaliesAux_pairwise (avg threshold : ℚ) :
    ∀ (l : List PressureSample) (n : ℕ),
      List.Pairwise (fun a b => a.index < b.index)
        ((pyEnumFrom n l).filterMap (anomalyOfIndexed avg threshold)) := by
  intro l
  induction l with
  | nil => intro n; simp [pyEnumFrom]
  | cons x xs ih =>
    intro n
    cases hf : anomalyOfIndexed avg threshold (n, x) with
    | none =>
      simp only [pyEnumFrom, List.filterMap_cons, hf]
      exact ih (n + 1)
    | some b =>
      simp only [pyEnumFrom, List.filterMap_cons, hf]
      refine List.Pairwise.cons ?_ (ih (n + 1))
      intro c hc
      obtain ⟨_, hb⟩ := (anomalyOfIndexed_eq_some avg threshold n x b).mp hf
      have hbi : b.index = n := by rw [hb]; rfl
      have hci : n + 1 ≤ c.index := anomaliesAux_index_ge avg threshold xs (n + 1) c hc
      omega

/-- For a nonnegative threshold, the deviation of the source exceeds the
threshold exactly when the relative deviation of the spec wording does. -/
lemma deviation_iff_spec (threshold pressure avg : ℚ) (ht : 0 ≤ threshold) :
    threshold < deviationOf pressure avg ↔
      threshold < specRelativeDeviation pressure avg := by
  unfold deviationOf specRelativeDeviation
  rcases lt_trichotomy 0 avg with hpos | hzero | hneg
  · rw [if_pos hpos, if_neg (ne_of_gt hpos)]
  · rw [if_neg (by rw [← hzero]; exact lt_irrefl 0), if_pos hzero.symm]
  · rw [if_neg (by linarith), if_neg (ne_of_lt hneg)]
    constructor
    · intro hc; exact absurd hc (not_lt.mpr ht)
    · intro hc
      exfalso
      have hle : |pressure - avg| / avg ≤ 0 :=
        div_nonpos_of_nonneg_of_nonpos (abs_nonneg _) (le_of_lt hneg)
      linarith

/-- Claim C3 (amended): for a nonnegative threshold, a sample is flagged
anomalous exactly when its relative deviation from the mean (zero when
the mean is zero) strictly exceeds the threshold; each anomaly carries
the pressure, time and original index of its sample and is kind low when
its pressure is below the mean and high otherwise; the anomalies list
carries strictly increasing indices, preserving input order; on the
worked example exactly the third sample (index 2, pressure 0.32) is
flagged, as low. -/
theorem detect_pressure_anomaly_flags :
    (∀ (pressure_data : List PressureSample) (threshold : ℚ) (r : PressureReport),
        0 ≤ threshold →
        detect_pressure_anomaly pressure_data threshold = some r →
        (∀ (i : ℕ) (d : PressureSample), pressure_data.get? i = some d →
          ((∃ a ∈ r.anomalies, a.index = i) ↔
            threshold <
              specRelativeDeviation d.pressure (pyMean (pressuresOf pressure_data)))) ∧
        (∀ a ∈ r.anomalies, ∃ d : PressureSample,
          pressure_data.get? a.index = some d ∧
          a.pressure = d.pressure ∧ a.time = d.time ∧
          a.anomaly_type =
            if d.pressure < pyMean (pressuresOf pressure_data) then "low" else "high") ∧
        List.Pairwise (fun a b => a.index < b.index) r.anomalies) ∧
    (detect_pressure_anomaly examplePressureData (15/100)).map
        (fun rep => rep.anomalies.map (fun a => (a.index, a.pressure, a.anomaly_type))) =
      some [(2, 8/25, "low")] := by
  constructor
  · intro pressure_data threshold r ht hr
    obtain ⟨hne, rfl⟩ := detect_eq_some hr
    have hanom : (detectBody pressure_data threshold).anomalies =
        anomaliesOf pressure_data threshold := rfl
    rw [hanom]
    refine ⟨?_, ?_, ?_⟩
    · intro i d hd
      constructor
      · rintro ⟨a, ha, rfl⟩
        obtain ⟨j, d', hg', hf⟩ := mem_anomaliesOf.mp ha
        obtain ⟨hdev, hamk⟩ := (anomalyOfIndexed_eq_some _ _ _ _ _).mp hf
        have hji : j = a.index := by rw [hamk]; rfl
        rw [← hji] at hd
        have hdd : d' = d := Option.some.inj (hg'.symm.trans hd)
        rw [← hdd]
        exact (deviation_iff_spec threshold d'.pressure _ ht).mp hdev
      · intro hlt
        have hdev : threshold <
            deviationOf d.pressure (pyMean (pressuresOf pressure_data)) :=
          (deviation_iff_spec threshold d.pressure _ ht).mpr hlt
        refine ⟨mkAnomaly i d (pyMean (pressuresOf pressure_data)), ?_, rfl⟩
        apply mem_anomaliesOf.mpr
        refine ⟨i, d, hd, ?_⟩
        show (if threshold < deviationOf d.pressure (pyMean (pressuresOf pressure_data))
              then some (mkAnomaly i d (pyMean (pressuresOf pressure_data))) else none) = _
        rw [if_pos hdev]
    · intro a ha
      obtain ⟨j, d', hg', hf⟩ := mem_anomaliesOf.mp ha
      obtain ⟨hdev, hamk⟩ := (anomalyOfIndexed_eq_some _ _ _ _ _).mp hf
      subst hamk
      exact ⟨d', hg', rfl, rfl, rfl⟩
    · exact anomaliesAux_pairwise _ _ pressure_data 0
  · have hd : detect_pressure_anomaly examplePressureData (15/100) =
        some (detectBody examplePressureData (15/100)) := rfl
    rw [hd, Option.map_some']
    show some ((anomaliesOf examplePressureData (15/100)).map
        (fun a => (a.index, a.pressure, a.anomaly_type))) = some [(2, 8/25, "low")]
    have hmu : pyMean (pressuresOf examplePressureData) = 11/25 := by
      norm_num [pyMean, pressuresOf, examplePressureData]
    have h0 : anomalyOfIndexed (11/25) (15/100) (0, ⟨"08:00", 48/100⟩) = none := by
      show (if (15:ℚ)/100 < deviationOf (48/100) (11/25) then _ else none) = none
      rw [if_neg (by norm_num [deviationOf, abs])]
    have h1 : anomalyOfIndexed (11/25) (15/100) (1, ⟨"09:00", 47/100⟩) = none := by
      show (if (15:ℚ)/100 < deviationOf (47/100) (11/25) then _ else none) = none
      rw [if_neg (by norm_num [deviationOf, abs])]
    have h2 : anomalyOfIndexed (11/25) (15/100) (2, ⟨"10:00", 32/100⟩) =
        some (mkAnomaly 2 ⟨"10:00", 32/100⟩ (11/25)) := by
      show (if (15:ℚ)/100 < deviationOf (32/100) (11/25)
            then some (mkAnomaly 2 ⟨"10:00", 32/100⟩ (11/25)) else none) = _
      rw [if_pos (by norm_num [deviationOf, abs])]
    have h3 : anomalyOfIndexed (11/25) (15/100) (3, ⟨"11:00", 46/100⟩) = none := by
      show (if (15:ℚ)/100 < deviationOf (46/100) (11/25) then _ else none) = none
      rw [if_neg (by norm_num [deviationOf, abs])]
    have h4 : anomalyOfIndexed (11/25) (15/100) (4, ⟨"12:00", 47/100⟩) = none := by
      show (if (15:ℚ)/100 < deviationOf (47/100) (11/25) then _ else none) = none
      rw [if_neg (by norm_num [deviationOf, abs])]
    unfold anomaliesOf
    rw [hmu]
    simp only [examplePressureData, pyEnumFrom, List.filterMap_cons, h0, h1, h2, h3, h4,
      List.filterMap_nil, List.map_cons, List.map_nil, mkAnomaly]
    norm_num

/-- Witness for claim C3 on a concrete two-sample series with the default
threshold. -/
theorem detect_pressure_anomaly_flags_witness :
    (0:ℚ) ≤ 15/100 ∧
    ((∀ (i : ℕ) (d : PressureSample), witnessPressureData.get? i = some d →
        ((∃ a ∈ (detectBody witnessPressureData (15/100)).anomalies, a.index = i) ↔
          (15:ℚ)/100 <
            specRelativeDeviation d.pressure (pyMean (pressuresOf witnessPressureData)))) ∧
     (∀ a ∈ (detectBody witnessPressureData (15/100)).anomalies, ∃ d : PressureSample,
        witnessPressureData.get? a.index = some d ∧
        a.pressure = d.pressure ∧ a.time = d.time ∧
        a.anomaly_type =
          if d.pressure < pyMean (pressuresOf witnessPressureData) then "low" else "high") ∧
     List.Pairwise (fun a b => a.index < b.index)
        (detectBody witnessPressureData (15/100)).anomalies) :=
  ⟨by norm_num,
   detect_pressure_anomaly_flags.1 witnessPressureData (15/100)
     (detectBody witnessPressureData (15/100)) (by norm_num) rfl⟩

/-- Counterexample for claim C3 as stated: with a negative threshold and a
negative mean, the code flags every sample (its deviation is hardwired to
zero when the mean is not positive), while the relative deviation of the
claim exceeds the threshold for none of them. -/
theorem detect_negative_threshold_cex :
    (detect_pressure_anomaly [⟨"00:00", -1⟩, ⟨"01:00", -3⟩] (-1/10)).map
        (fun rep => rep.anomalies.map (fun a => a.index)) = some [0, 1] ∧
    ¬ ((-1:ℚ)/10 <
        specRelativeDeviation (-1) (pyMean (pressuresOf [⟨"00:00", -1⟩, ⟨"01:00", -3⟩]))) := by
  constructor
  · have hd : detect_pressure_anomaly [⟨"00:00", -1⟩, ⟨"01:00", -3⟩] (-1/10) =
        some (detectBody [⟨"00:00", -1⟩, ⟨"01:00", -3⟩] (-1/10)) := rfl
    rw [hd, Option.map_some']
    show some ((anomaliesOf [⟨"00:00", -1⟩, ⟨"01:00", -3⟩] (-1/10)).map (fun a => a.index)) =
      some [0, 1]
    have hmu : pyMean (pressuresOf [⟨"00:00", -1⟩, ⟨"01:00", -3⟩]) = -2 := by
      norm_num [pyMean, pressuresOf]
    have h0 : anomalyOfIndexed (-2) (-1/10) (0, ⟨"00:00", -1⟩) =
        some (mkAnomaly 0 ⟨"00:00", -1⟩ (-2)) := by
      show (if (-1:ℚ)/10 < deviationOf (-1) (-2)
            then some (mkAnomaly 0 ⟨"00:00", -1⟩ (-2)) else none) = _
      rw [if_pos (by norm_num [deviationOf])]
    have h1 : anomalyOfIndexed (-2) (-1/10) (1, ⟨"01:00", -3⟩) =
        some (mkAnomaly 1 ⟨"01:00", -3⟩ (-2)) := by
      show (if (-1:ℚ)/10 < deviationOf (-3) (-2)
            then some (mkAnomaly 1 ⟨"01:00", -3⟩ (-2)) else none) = _
      rw [if_pos (by norm_num [deviationOf])]
    unfold anomaliesOf
    rw [hmu]
    simp only [pyEnumFrom, List.filterMap_cons, h0, h1, List.filterMap_nil,
      List.map_cons, List.map_nil, mkAnomaly]
  · norm_num [specRelativeDeviation, pyMean, pressuresOf, abs]
